import Mathlib

/-!
# Verification of `takopi` configuration resolution (`src/takopi/config.py`)

Shallow embedding of the configuration subsystem:

* TOML documents are nested key/value maps.  Python `dict`s preserve
  insertion order and have unique keys, so a document is an association
  list `List (String × Value)`; `dict` lookup is first-match lookup and
  `d[k] = v` updates the first occurrence in place or appends.
* The filesystem is an association list from paths (component lists) to
  nodes.  A node is a readable regular file with its text content, an
  unreadable regular file (reads raise `OSError`), or a non-file entry
  such as a directory.  Environment problems during migration writes
  (`mkdir`/`write_text` failures) are not modelled: writes succeed.
* `tomllib.loads` is external to the repository, so loaders are
  parametrised by `parse : String → Except String Doc`, the error payload
  being the parser's diagnostic text.
* Each `raise ConfigError(f"...")` site is modelled by a dedicated
  constructor of `ConfigErr` carrying the payloads interpolated into the
  message.
-/

/-- A TOML value as produced by `tomllib.loads`: string, integer, boolean,
array, or nested table.  (Python `bool` is a subclass of `int`; the model
keeps them as separate constructors and translates every
`isinstance(x, bool)` / `isinstance(x, int)` test accordingly.) -/
inductive Value where
  | str : String → Value
  | int : Int → Value
  | bool : Bool → Value
  | arr : List Value → Value
  | dict : List (String × Value) → Value

/-- A nested document: a Python `dict` with string keys, as an ordered
association list with unique keys. -/
abbrev Doc := List (String × Value)

/-- Python `dict` lookup `d[k]` / `k in d`: first binding of the key. -/
def assocFind : Doc → String → Option Value
  | [], _ => none
  | (k', v) :: rest, k => if k' = k then some v else assocFind rest k

/-- Python `dict` assignment `d[k] = v`: replace the first binding of `k`
in place, or append a new binding at the end. -/
def assocSet : Doc → String → Value → Doc
  | [], k, v => [(k, v)]
  | (k', v') :: rest, k, v =>
      if k' = k then (k, v) :: rest else (k', v') :: assocSet rest k v

/-- Function `_deep_merge(base, override)` from `config.py`:
`result = base.copy()`, then for each `key, value` in `override.items()`,
if `key in result and isinstance(result[key], dict) and
isinstance(value, dict)` then `result[key] = _deep_merge(result[key], value)`
else `result[key] = value`. -/
def _deep_merge (base : Doc) : Doc → Doc
  | [] => base
  | (k, v) :: rest =>
      match assocFind base k, v with
      | some (Value.dict bd), Value.dict vd =>
          _deep_merge (assocSet base k (Value.dict (_deep_merge bd vd))) rest
      | _, _ => _deep_merge (assocSet base k v) rest
termination_by ov => sizeOf ov
decreasing_by
  all_goals simp_wf
  all_goals omega

/-- Test `isinstance(v, dict)` on a TOML value. -/
def isTable : Value → Bool
  | Value.dict _ => true
  | _ => false

/-- A flat document: none of its values is a nested table. -/
def isFlat (d : Doc) : Bool := d.all fun p => !isTable p.2

/-- A filesystem path, as the list of its components.  `Path.cwd()` and
`Path.home()` return absolute paths, and `pathlib` path equality is
componentwise, so `a / b == c / d` iff the component lists agree. -/
abbrev FsPath := List String

/-- What sits at a path: a readable regular file with its text content, a
regular file whose read raises `OSError`, or an entry that exists but is
not a regular file (e.g. a directory). -/
inductive FsNode where
  | file : String → FsNode
  | ufile : FsNode
  | dir : FsNode

/-- The filesystem: a finite map from paths to nodes. -/
abbrev Fs := List (FsPath × FsNode)

def fsFind : Fs → FsPath → Option FsNode
  | [], _ => none
  | (p, n) :: rest, q => if p = q then some n else fsFind rest q

def fsSet : Fs → FsPath → FsNode → Fs
  | [], p, n => [(p, n)]
  | (p', n') :: rest, p, n =>
      if p' = p then (p, n) :: rest else (p', n') :: fsSet rest p n

/-- Python `path.exists()`. -/
def fsExists (fs : Fs) (p : FsPath) : Bool := (fsFind fs p).isSome

/-- Python `path.is_file()`: true for regular files, readable or not. -/
def fsIsFile (fs : Fs) (p : FsPath) : Bool :=
  match fsFind fs p with
  | some (FsNode.file _) => true
  | some FsNode.ufile => true
  | _ => false

/-- Constant `LOCAL_CONFIG_NAME = Path(".takopi") / "takopi.toml"`. -/
def LOCAL_CONFIG_NAME : FsPath := [".takopi", "takopi.toml"]

/-- Constant `LOCAL_CONFIG_SIMPLE = Path("takopi.toml")`. -/
def LOCAL_CONFIG_SIMPLE : FsPath := ["takopi.toml"]

/-- Constant `LEGACY_LOCAL_CONFIG_NAME = Path(".codex") / "takopi.toml"`. -/
def LEGACY_LOCAL_CONFIG_NAME : FsPath := [".codex", "takopi.toml"]

/-- Constant `HOME_CONFIG_PATH = Path.home() / ".takopi" / "takopi.toml"`. -/
def HOME_CONFIG_PATH (home : FsPath) : FsPath :=
  home ++ [".takopi", "takopi.toml"]

/-- Constant `LEGACY_HOME_CONFIG_PATH = Path.home() / ".codex" / "takopi.toml"`. -/
def LEGACY_HOME_CONFIG_PATH (home : FsPath) : FsPath :=
  home ++ [".codex", "takopi.toml"]

/-- Function `_local_config_candidates()`: `[cwd / LOCAL_CONFIG_SIMPLE,
cwd / LOCAL_CONFIG_NAME]`, in priority order. -/
def _local_config_candidates (cwd : FsPath) : List FsPath :=
  [cwd ++ LOCAL_CONFIG_SIMPLE, cwd ++ LOCAL_CONFIG_NAME]

/-- Function `_config_candidates()`: `[cwd / LOCAL_CONFIG_NAME, HOME_CONFIG_PATH]`,
collapsed to a single entry when the two coincide. -/
def _config_candidates (cwd home : FsPath) : List FsPath :=
  if cwd ++ LOCAL_CONFIG_NAME = HOME_CONFIG_PATH home then
    [cwd ++ LOCAL_CONFIG_NAME]
  else
    [cwd ++ LOCAL_CONFIG_NAME, HOME_CONFIG_PATH home]

/-- Function `_legacy_candidates()`: `[cwd / LEGACY_LOCAL_CONFIG_NAME,
LEGACY_HOME_CONFIG_PATH]`, collapsed when the two coincide. -/
def _legacy_candidates (cwd home : FsPath) : List FsPath :=
  if cwd ++ LEGACY_LOCAL_CONFIG_NAME = LEGACY_HOME_CONFIG_PATH home then
    [cwd ++ LEGACY_LOCAL_CONFIG_NAME]
  else
    [cwd ++ LEGACY_LOCAL_CONFIG_NAME, LEGACY_HOME_CONFIG_PATH home]

/-- One constructor per `raise ConfigError(f"...")` site of `config.py`,
carrying the values interpolated into the message.  The secret errors
name only the offending key, as the messages do. -/
inductive ConfigErr where
  | obstructed : FsPath → ConfigErr
  | migrationFailed : FsPath → FsPath → ConfigErr
  | missingFile : FsPath → ConfigErr
  | unreadable : FsPath → ConfigErr
  | malformed : FsPath → String → ConfigErr
  | missingGlobal : ConfigErr
  | missingBotToken : ConfigErr
  | invalidBotToken : ConfigErr
  | missingChatId : ConfigErr
  | invalidChatId : ConfigErr
  | invalidEnvChatId : ConfigErr

/-- Function `_maybe_migrate_legacy(legacy_path, target_path)`: if the
target exists it must be a regular file (else `ConfigError`) and nothing
happens; if the legacy path is not a regular file nothing happens;
otherwise the legacy text is copied verbatim to the target (`OSError`
while reading becomes a migration `ConfigError`; directory creation and
the write itself are assumed to succeed, see the module comment).  Beside
the new filesystem the model returns the list of writes performed. -/
def _maybe_migrate_legacy (fs : Fs) (legacy target : FsPath) :
    Except ConfigErr (Fs × List (FsPath × String)) :=
  if fsExists fs target then
    if !fsIsFile fs target then Except.error (ConfigErr.obstructed target)
    else Except.ok (fs, [])
  else if !fsIsFile fs legacy then Except.ok (fs, [])
  else
    match fsFind fs legacy with
    | some (FsNode.file raw) =>
        Except.ok (fsSet fs target (FsNode.file raw), [(target, raw)])
    | _ => Except.error (ConfigErr.migrationFailed legacy target)

/-- The migration loop of `load_telegram_config`:
`for legacy, target in zip(_legacy_candidates(), _config_candidates(),
strict=True): _maybe_migrate_legacy(legacy, target)`. -/
def migrateAll (fs : Fs) :
    List (FsPath × FsPath) → Except ConfigErr (Fs × List (FsPath × String))
  | [] => Except.ok (fs, [])
  | (lg, tgt) :: rest =>
      match _maybe_migrate_legacy fs lg tgt with
      | Except.error e => Except.error e
      | Except.ok (fs1, w1) =>
          match migrateAll fs1 rest with
          | Except.error e => Except.error e
          | Except.ok (fs2, ws) => Except.ok (fs2, w1 ++ ws)

/-- Function `_try_read_config(cfg_path)`: `None` unless the path is a
regular file whose text reads and parses; `OSError` and
`TOMLDecodeError` give `None`. -/
def _try_read_config (parse : String → Except String Doc) (fs : Fs)
    (p : FsPath) : Option Doc :=
  if !fsIsFile fs p then none
  else
    match fsFind fs p with
    | some (FsNode.file raw) =>
        match parse raw with
        | Except.ok d => some d
        | Except.error _ => none
    | _ => none

/-- Function `_read_config(cfg_path)`: `FileNotFoundError` gives the
missing-file error, any other `OSError` (including reading a directory)
the unreadable error, and `TOMLDecodeError` the malformed error carrying
the parser diagnostic. -/
def _read_config (parse : String → Except String Doc) (fs : Fs)
    (p : FsPath) : Except ConfigErr Doc :=
  match fsFind fs p with
  | none => Except.error (ConfigErr.missingFile p)
  | some FsNode.ufile => Except.error (ConfigErr.unreadable p)
  | some FsNode.dir => Except.error (ConfigErr.unreadable p)
  | some (FsNode.file raw) =>
      match parse raw with
      | Except.ok d => Except.ok d
      | Except.error e => Except.error (ConfigErr.malformed p e)

/-- The global-layer block of `load_telegram_config`: best-effort read of
the canonical home path if it is a file, else of the legacy home path if
that is a file, paired with the path chosen. -/
def _global_layer (parse : String → Except String Doc) (fs : Fs)
    (home : FsPath) : Option (Doc × FsPath) :=
  if fsIsFile fs (HOME_CONFIG_PATH home) then
    (_try_read_config parse fs (HOME_CONFIG_PATH home)).map
      (fun d => (d, HOME_CONFIG_PATH home))
  else if fsIsFile fs (LEGACY_HOME_CONFIG_PATH home) then
    (_try_read_config parse fs (LEGACY_HOME_CONFIG_PATH home)).map
      (fun d => (d, LEGACY_HOME_CONFIG_PATH home))
  else none

/-- The local-candidate loop of `load_telegram_config`: first candidate
whose best-effort read yields a document, with that candidate's path. -/
def tryLocals (parse : String → Except String Doc) (fs : Fs) :
    List FsPath → Option (Doc × FsPath)
  | [] => none
  | c :: rest =>
      match _try_read_config parse fs c with
      | some d => some (d, c)
      | none => tryLocals parse fs rest

/-- Function `load_telegram_config(path)`.  With an explicit path: required
read, provenance that path, no migration and no merge.  Without: migrate
every legacy/canonical pair, load the global layer (canonical home path
first, else legacy home path; neither yielding a document is fatal), then
best-effort the local candidates — the first hit is deep-merged over the
global layer and becomes the provenance, otherwise the global layer and
its path are returned.  The filesystem left by migration is returned
alongside. -/
def load_telegram_config (parse : String → Except String Doc) (fs : Fs)
    (cwd home : FsPath) :
    Option FsPath → Except ConfigErr (Doc × FsPath × Fs)
  | some p =>
      match _read_config parse fs p with
      | Except.error e => Except.error e
      | Except.ok d => Except.ok (d, p, fs)
  | none =>
      match migrateAll fs
          (List.zip (_legacy_candidates cwd home) (_config_candidates cwd home)) with
      | Except.error e => Except.error e
      | Except.ok (fs1, _) =>
          match _global_layer parse fs1 home with
          | none => Except.error ConfigErr.missingGlobal
          | some (g, gp) =>
              match tryLocals parse fs1 (_local_config_candidates cwd) with
              | some (d, c) => Except.ok (_deep_merge g d, c, fs1)
              | none => Except.ok (g, gp, fs1)

/-- State of one legacy/canonical pair after a successful migration pass:
the canonical path holds a regular file, or it is absent and the legacy
path is not a regular file — either way a later pass has nothing to do. -/
def migratedPair (fs : Fs) (p : FsPath × FsPath) : Prop :=
  fsIsFile fs p.2 = true ∨ (fsFind fs p.2 = none ∧ fsIsFile fs p.1 = false)

/-- Sample stand-in for `tomllib.loads` used in concrete runs: two
recognised texts, one text that fails parsing with diagnostic "diag",
everything else the empty document. -/
def sampleParse : String → Except String Doc
  | "g" => Except.ok [("bot_token", Value.str "abc"), ("chat_id", Value.int 111)]
  | "l" => Except.ok [("chat_id", Value.int 222)]
  | "bad" => Except.error "diag"
  | _ => Except.ok []

/-- Recogniser for the malformed-document error kind. -/
def isMalformedErr : ConfigErr → Bool
  | ConfigErr.malformed _ _ => true
  | _ => false

/-- Constant `ENV_BOT_TOKEN = "TAKOPI_BOT_TOKEN"`. -/
def ENV_BOT_TOKEN : String := "TAKOPI_BOT_TOKEN"

/-- Constant `ENV_CHAT_ID = "TAKOPI_CHAT_ID"`. -/
def ENV_CHAT_ID : String := "TAKOPI_CHAT_ID"

/-- Characters removed by Python `str.strip()` (the ASCII ones). -/
def pyWhitespace (c : Char) : Bool :=
  c = ' ' || c = '\t' || c = '\n' || c = '\r' || c = '\x0b' || c = '\x0c'

/-- Python `s.strip()`: drop whitespace from both ends. -/
def pyStrip (s : String) : String :=
  String.mk
    (((s.toList.dropWhile pyWhitespace).reverse.dropWhile pyWhitespace).reverse)

def isDigitChar (c : Char) : Bool := '0' ≤ c && c ≤ '9'

/-- Digit run of Python `int(s)`: decimal digits with single underscores
allowed between digits only. -/
def pyParseDigits : Nat → List Char → Option Nat
  | acc, [] => some acc
  | acc, '_' :: c :: rest =>
      if isDigitChar c then pyParseDigits (acc * 10 + (c.toNat - 48)) rest
      else none
  | acc, c :: rest =>
      if isDigitChar c then pyParseDigits (acc * 10 + (c.toNat - 48)) rest
      else none

/-- Python `int(s)` on an already-stripped string: optional sign, then a
decimal digit run; anything else raises `ValueError` (modelled `none`). -/
def pyParseInt (s : String) : Option Int :=
  match s.toList with
  | '+' :: c :: rest =>
      if isDigitChar c then
        (pyParseDigits (c.toNat - 48) rest).map (fun n => Int.ofNat n)
      else none
  | '-' :: c :: rest =>
      if isDigitChar c then
        (pyParseDigits (c.toNat - 48) rest).map (fun n => -Int.ofNat n)
      else none
  | c :: rest =>
      if isDigitChar c then
        (pyParseDigits (c.toNat - 48) rest).map (fun n => Int.ofNat n)
      else none
  | [] => none

/-- The config-file fallback of `get_bot_token`: `config["bot_token"]`
must exist and be a string with non-empty strip, which is returned
stripped. -/
def get_bot_token_config (config : Doc) : Except ConfigErr String :=
  match assocFind config "bot_token" with
  | none => Except.error ConfigErr.missingBotToken
  | some (Value.str s) =>
      if pyStrip s = "" then Except.error ConfigErr.invalidBotToken
      else Except.ok (pyStrip s)
  | some _ => Except.error ConfigErr.invalidBotToken

/-- Function `get_bot_token(config, config_path)`: the environment
variable, when set and non-empty after stripping, wins outright and is
returned stripped; otherwise the config value is used.  The ambient
environment is passed explicitly as a lookup function. -/
def get_bot_token (env : String → Option String) (config : Doc) :
    Except ConfigErr String :=
  match env ENV_BOT_TOKEN with
  | some t =>
      if t ≠ "" ∧ pyStrip t ≠ "" then Except.ok (pyStrip t)
      else get_bot_token_config config
  | none => get_bot_token_config config

/-- The config-file fallback of `get_chat_id`: `config["chat_id"]` must
exist and be an integer that is not a boolean.  `Value.bool` is a
distinct constructor here, so the Python test
`isinstance(chat_id_value, bool) or not isinstance(chat_id_value, int)`
becomes: accept exactly `Value.int`. -/
def get_chat_id_config (config : Doc) : Except ConfigErr Int :=
  match assocFind config "chat_id" with
  | none => Except.error ConfigErr.missingChatId
  | some (Value.int n) => Except.ok n
  | some _ => Except.error ConfigErr.invalidChatId

/-- Function `get_chat_id(config, config_path)`: the environment variable,
when set and non-empty after stripping, is parsed as a base-10 integer
(failure is the invalid-environment-value error); otherwise the config
value is used. -/
def get_chat_id (env : String → Option String) (config : Doc) :
    Except ConfigErr Int :=
  match env ENV_CHAT_ID with
  | some t =>
      if t ≠ "" ∧ pyStrip t ≠ "" then
        match pyParseInt (pyStrip t) with
        | some n => Except.ok n
        | none => Except.error ConfigErr.invalidEnvChatId
      else get_chat_id_config config
  | none => get_chat_id_config config

theorem assocFind_assocSet_self (d : Doc) (k : String) (v : Value) :
    assocFind (assocSet d k v) k = some v := by
  induction d with
  | nil => simp [assocSet, assocFind]
  | cons p rest ih =>
      obtain ⟨k', v'⟩ := p
      by_cases h : k' = k <;> simp [assocSet, assocFind, h, ih]

theorem assocFind_assocSet_ne (d : Doc) {k k' : String} (v : Value)
    (h : k' ≠ k) : assocFind (assocSet d k v) k' = assocFind d k' := by
  induction d with
  | nil => simp [assocSet, assocFind, Ne.symm h]
  | cons p rest ih =>
      obtain ⟨k'', v''⟩ := p
      by_cases h2 : k'' = k
      · subst h2
        simp [assocSet, assocFind, Ne.symm h]
      · simp only [assocSet, if_neg h2, assocFind]
        by_cases h3 : k'' = k' <;> simp [h3, ih]

theorem deep_merge_nil (base : Doc) : _deep_merge base [] = base := by
  simp [_deep_merge]

theorem deep_merge_cons (base : Doc) (k : String) (v : Value) (rest : Doc) :
    _deep_merge base ((k, v) :: rest) =
      _deep_merge
        (match assocFind base k, v with
          | some (Value.dict bd), Value.dict vd =>
              assocSet base k (Value.dict (_deep_merge bd vd))
          | _, _ => assocSet base k v) rest := by
  rcases hf : assocFind base k with _ | val
  · rcases v <;> simp [_deep_merge, hf]
  · rcases val <;> rcases v <;> simp [_deep_merge, hf]

/-- Updating key `k0` (whether or not the value recursed) does not change
lookups at any other key. -/
theorem assocFind_mergeStep_ne (base : Doc) (k0 : String) (v0 : Value)
    {k : String} (h : k ≠ k0) :
    assocFind
      (match assocFind base k0, v0 with
        | some (Value.dict bd), Value.dict vd =>
            assocSet base k0 (Value.dict (_deep_merge bd vd))
        | _, _ => assocSet base k0 v0) k = assocFind base k := by
  rcases hf : assocFind base k0 with _ | val
  · rcases v0 <;> simp [assocFind_assocSet_ne _ _ h]
  · rcases val <;> rcases v0 <;> simp [assocFind_assocSet_ne _ _ h]

/-- Keys never touched by `override` keep their `base` binding. -/
theorem assocFind_deep_merge_of_not_mem (base ov : Doc) (k : String)
    (h : k ∉ ov.map Prod.fst) :
    assocFind (_deep_merge base ov) k = assocFind base k := by
  induction ov generalizing base with
  | nil => simp [deep_merge_nil]
  | cons p rest ih =>
      obtain ⟨k', v'⟩ := p
      simp only [List.map_cons, List.mem_cons, not_or] at h
      rw [deep_merge_cons, ih _ h.2, assocFind_mergeStep_ne _ _ _ h.1]

/-- Pointwise characterisation of `_deep_merge`: at each key, if both
sides hold tables the result is the recursive merge, otherwise the
override binding wins, and keys absent from the override keep their base
binding.  (Python dicts have unique keys, hence the `Nodup` hypothesis.) -/
theorem assocFind_deep_merge (base ov : Doc)
    (hov : (ov.map Prod.fst).Nodup) (k : String) :
    assocFind (_deep_merge base ov) k =
      match assocFind ov k, assocFind base k with
      | some (Value.dict vd), some (Value.dict bd) =>
          some (Value.dict (_deep_merge bd vd))
      | some v, _ => some v
      | none, b => b := by
  induction ov generalizing base with
  | nil => simp [deep_merge_nil, assocFind]
  | cons p rest ih =>
      obtain ⟨k', v'⟩ := p
      simp only [List.map_cons, List.nodup_cons] at hov
      rw [deep_merge_cons]
      by_cases hk : k = k'
      · subst hk
        rw [assocFind_deep_merge_of_not_mem _ _ _ hov.1]
        simp only [assocFind, if_pos rfl]
        rcases hf : assocFind base k with _ | val
        · rcases v' <;> simp [hf, assocFind_assocSet_self]
        · rcases val <;> rcases v' <;>
            simp [hf, assocFind_assocSet_self]
      · rw [ih _ hov.2, assocFind_mergeStep_ne _ _ _ hk]
        simp [assocFind, Ne.symm hk]

/-- C1: `_deep_merge(base, override)` maps every key of `override` as
follows: if the key also exists in `base` and both values are nested
documents, the result at that key is the recursive merge of the two;
otherwise the result at that key is exactly `override`'s value; every key
present only in `base` appears unchanged in the result. -/
theorem C1_deep_merge_spec (base ov : Doc) (hov : (ov.map Prod.fst).Nodup)
    (k : String) :
    (∀ vd bd, assocFind ov k = some (Value.dict vd) →
        assocFind base k = some (Value.dict bd) →
        assocFind (_deep_merge base ov) k
          = some (Value.dict (_deep_merge bd vd)))
    ∧ (∀ v, assocFind ov k = some v →
        (∀ vd, v = Value.dict vd → ∀ bd,
            assocFind base k ≠ some (Value.dict bd)) →
        assocFind (_deep_merge base ov) k = some v)
    ∧ (assocFind ov k = none →
        assocFind (_deep_merge base ov) k = assocFind base k) := by
  refine ⟨?_, ?_, ?_⟩
  · intro vd bd h1 h2
    rw [assocFind_deep_merge base ov hov k, h1, h2]
  · intro v h1 h2
    rw [assocFind_deep_merge base ov hov k, h1]
    rcases hb : assocFind base k with _ | val
    · rcases v <;> rfl
    · rcases val <;> rcases v <;>
        first
          | rfl
          | exact absurd hb (h2 _ rfl _)
  · intro h1
    rw [assocFind_deep_merge base ov hov k, h1]

theorem C1_deep_merge_spec_witness :
    assocFind (_deep_merge
        [("a", Value.int 1), ("t", Value.dict [("x", Value.int 1)])]
        [("t", Value.dict [("y", Value.int 3)])]) "t"
      = some (Value.dict [("x", Value.int 1), ("y", Value.int 3)]) := by
  have h := (C1_deep_merge_spec
      [("a", Value.int 1), ("t", Value.dict [("x", Value.int 1)])]
      [("t", Value.dict [("y", Value.int 3)])] (by decide) "t").1
      [("y", Value.int 3)] [("x", Value.int 1)] (by rfl) (by rfl)
  rw [h]
  simp [deep_merge_cons, deep_merge_nil, assocFind, assocSet]

/-- C6 counterexample: with `A = {k: {x: 1}}`, `B = {k: 2}`, `C = {k: {}}`,
`merge(merge(A, B), C)` holds `{}` at `k` (the scalar in `B` destroyed the
table, so `C` replaces rather than recurses) while `merge(A, merge(B, C))`
holds `{x: 1}` (the table of `C` recursed into the table of `A`), so the
two are different documents: left-to-right chained merge is not
associative. -/
theorem C6_counterexample :
    assocFind
        (_deep_merge
          (_deep_merge [("k", Value.dict [("x", Value.int 1)])]
            [("k", Value.int 2)])
          [("k", Value.dict [])]) "k"
      = some (Value.dict [])
    ∧ assocFind
        (_deep_merge [("k", Value.dict [("x", Value.int 1)])]
          (_deep_merge [("k", Value.int 2)] [("k", Value.dict [])])) "k"
      = some (Value.dict [("x", Value.int 1)])
    ∧ Value.dict ([] : List (String × Value))
        ≠ Value.dict [("x", Value.int 1)] := by
  refine ⟨?_, ?_, ?_⟩
  · simp [deep_merge_cons, deep_merge_nil, assocFind, assocSet]
  · simp [deep_merge_cons, deep_merge_nil, assocFind, assocSet]
  · intro h
    simp only [Value.dict.injEq] at h
    exact List.cons_ne_nil _ _ h.symm

theorem isFlat_nil : isFlat [] = true := rfl

theorem isFlat_cons {k : String} {v : Value} {rest : Doc} :
    isFlat ((k, v) :: rest) = (!isTable v && isFlat rest) := by
  simp [isFlat]

theorem assocFind_isFlat {d : Doc} {k : String} {v : Value}
    (hd : isFlat d = true) (h : assocFind d k = some v) :
    isTable v = false := by
  induction d with
  | nil => simp [assocFind] at h
  | cons p rest ih =>
      obtain ⟨k', v'⟩ := p
      rw [isFlat_cons] at hd
      simp only [Bool.and_eq_true, Bool.not_eq_true'] at hd
      simp only [assocFind] at h
      by_cases hk : k' = k
      · rw [if_pos hk] at h
        cases h
        exact hd.1
      · rw [if_neg hk] at h
        exact ih hd.2 h

theorem isFlat_assocSet {d : Doc} {k : String} {v : Value}
    (hd : isFlat d = true) (hv : isTable v = false) :
    isFlat (assocSet d k v) = true := by
  induction d with
  | nil => simp [assocSet, isFlat, hv]
  | cons p rest ih =>
      obtain ⟨k', v'⟩ := p
      rw [isFlat_cons] at hd
      simp only [Bool.and_eq_true, Bool.not_eq_true'] at hd
      by_cases hk : k' = k
      · simp [assocSet, hk, isFlat_cons, hv, hd.2]
      · simp [assocSet, hk, isFlat_cons, hd.1, ih hd.2]

/-- When the override value is not a table, the per-key merge step is a
plain assignment, whatever the base holds. -/
theorem mergeStep_eq_assocSet (base : Doc) (k0 : String) (v0 : Value) :
    isTable v0 = false →
    (match assocFind base k0, v0 with
      | some (Value.dict bd), Value.dict vd =>
          assocSet base k0 (Value.dict (_deep_merge bd vd))
      | _, _ => assocSet base k0 v0) = assocSet base k0 v0 := by
  intro hv
  rcases hf : assocFind base k0 with _ | val
  · rcases v0 <;> rfl
  · rcases val <;> rcases v0 <;>
      first
        | rfl
        | exact Bool.noConfusion hv

/-- Merging two flat documents yields a flat document. -/
theorem isFlat_deep_merge {base ov : Doc} (hb : isFlat base = true)
    (ho : isFlat ov = true) : isFlat (_deep_merge base ov) = true := by
  induction ov generalizing base with
  | nil => simpa [deep_merge_nil] using hb
  | cons p rest ih =>
      obtain ⟨k', v'⟩ := p
      rw [isFlat_cons] at ho
      simp only [Bool.and_eq_true, Bool.not_eq_true'] at ho
      rw [deep_merge_cons, mergeStep_eq_assocSet _ _ _ ho.1]
      exact ih (isFlat_assocSet hb ho.1) ho.2

/-- On a flat override (with unique keys, as Python dicts have), deep
merge degenerates to a right-biased union of lookups. -/
theorem assocFind_deep_merge_flat (base ov : Doc)
    (hov : (ov.map Prod.fst).Nodup) (ho : isFlat ov = true) (k : String) :
    assocFind (_deep_merge base ov) k =
      match assocFind ov k with
      | some v => some v
      | none => assocFind base k := by
  rw [assocFind_deep_merge base ov hov k]
  rcases hf : assocFind ov k with _ | v
  · rfl
  · have hv := assocFind_isFlat ho hf
    rcases v <;> simp_all [isTable]

theorem assocSet_keys (d : Doc) (k : String) (v : Value) :
    (assocSet d k v).map Prod.fst =
      if k ∈ d.map Prod.fst then d.map Prod.fst
      else d.map Prod.fst ++ [k] := by
  induction d with
  | nil => simp [assocSet]
  | cons p rest ih =>
      obtain ⟨k', v'⟩ := p
      by_cases hk : k' = k
      · simp [assocSet, hk]
      · simp only [assocSet, if_neg hk, List.map_cons, ih, List.mem_cons]
        by_cases hmem : k ∈ rest.map Prod.fst <;>
          simp [hmem, Ne.symm hk]

/-- The per-key merge step touches the same key in both branches, so the
key list it produces does not depend on which branch ran. -/
theorem keys_mergeStep (base : Doc) (k0 : String) (v0 : Value) :
    ((match assocFind base k0, v0 with
      | some (Value.dict bd), Value.dict vd =>
          assocSet base k0 (Value.dict (_deep_merge bd vd))
      | _, _ => assocSet base k0 v0) : Doc).map Prod.fst
      = (assocSet base k0 v0).map Prod.fst := by
  rcases hf : assocFind base k0 with _ | val
  · rcases v0 <;> rfl
  · rcases val <;> rcases v0 <;> simp [assocSet_keys]

theorem nodup_keys_assocSet {d : Doc} (k : String) (v : Value)
    (hd : (d.map Prod.fst).Nodup) :
    ((assocSet d k v).map Prod.fst).Nodup := by
  rw [assocSet_keys]
  by_cases hmem : k ∈ d.map Prod.fst
  · simpa [hmem] using hd
  · simp [hmem, List.nodup_append, hd]

/-- Merging documents with unique keys yields a document with unique
keys, as Python dicts guarantee. -/
theorem nodup_keys_deep_merge {base ov : Doc}
    (hb : (base.map Prod.fst).Nodup) (ho : (ov.map Prod.fst).Nodup) :
    (((_deep_merge base ov) : Doc).map Prod.fst).Nodup := by
  induction ov generalizing base with
  | nil => simpa [deep_merge_nil] using hb
  | cons p rest ih =>
      obtain ⟨k', v'⟩ := p
      simp only [List.map_cons, List.nodup_cons] at ho
      rw [deep_merge_cons]
      refine ih ?_ ho.2
      rw [keys_mergeStep]
      exact nodup_keys_assocSet k' v' hb

/-- C6 amended: chained left-to-right merging is not associative in
general (see the counterexample: a key holding a table in the outer
documents but a scalar in the middle one breaks it); it is associative on
flat documents, where no value is a nested table: there the two
associations agree at every key. -/
theorem C6_deep_merge_flat_assoc (A B C : Doc)
    (hB : (B.map Prod.fst).Nodup) (hC : (C.map Prod.fst).Nodup)
    (hfB : isFlat B = true) (hfC : isFlat C = true) (k : String) :
    assocFind (_deep_merge (_deep_merge A B) C) k
      = assocFind (_deep_merge A (_deep_merge B C)) k := by
  have hBCf : isFlat (_deep_merge B C) = true := isFlat_deep_merge hfB hfC
  have hBCn : (((_deep_merge B C) : Doc).map Prod.fst).Nodup :=
    nodup_keys_deep_merge hB hC
  rw [assocFind_deep_merge_flat _ C hC hfC k,
      assocFind_deep_merge_flat A B hB hfB k,
      assocFind_deep_merge_flat A _ hBCn hBCf k,
      assocFind_deep_merge_flat B C hC hfC k]
  rcases assocFind C k with _ | v <;> rcases assocFind B k with _ | w <;> rfl

theorem C6_deep_merge_flat_assoc_witness :
    assocFind
        (_deep_merge
          (_deep_merge [("a", Value.int 1)] [("a", Value.str "s")])
          [("b", Value.bool true)]) "a"
      = assocFind
          (_deep_merge [("a", Value.int 1)]
            (_deep_merge [("a", Value.str "s")] [("b", Value.bool true)]))
          "a" :=
  C6_deep_merge_flat_assoc [("a", Value.int 1)] [("a", Value.str "s")]
    [("b", Value.bool true)] (by decide) (by decide) (by rfl) (by rfl) "a"

theorem config_candidates_collapse_iff (cwd home : FsPath) :
    (cwd ++ LOCAL_CONFIG_NAME = HOME_CONFIG_PATH home) ↔ cwd = home := by
  constructor
  · intro h
    exact List.append_cancel_right h
  · intro h
    rw [h]
    rfl

theorem legacy_candidates_collapse_iff (cwd home : FsPath) :
    (cwd ++ LEGACY_LOCAL_CONFIG_NAME = LEGACY_HOME_CONFIG_PATH home)
      ↔ cwd = home := by
  constructor
  · intro h
    exact List.append_cancel_right h
  · intro h
    rw [h]
    rfl

/-- C10: the legacy and canonical candidate lists always have the same
length — each collapses from two entries to one exactly when the working
directory equals the home directory — so the strict zip driving
migration in `load_telegram_config` never sees a length mismatch. -/
theorem C10_candidate_lists_same_length (cwd home : FsPath) :
    (_legacy_candidates cwd home).length = (_config_candidates cwd home).length
    ∧ ((_config_candidates cwd home).length = 1 ↔ cwd = home)
    ∧ ((_legacy_candidates cwd home).length = 1 ↔ cwd = home) := by
  by_cases h : cwd = home
  · subst h
    simp [_config_candidates, _legacy_candidates,
      (config_candidates_collapse_iff cwd cwd).mpr rfl,
      (legacy_candidates_collapse_iff cwd cwd).mpr rfl]
  · have hc : ¬(cwd ++ LOCAL_CONFIG_NAME = HOME_CONFIG_PATH home) :=
      fun hcc => h ((config_candidates_collapse_iff cwd home).mp hcc)
    have hl : ¬(cwd ++ LEGACY_LOCAL_CONFIG_NAME = LEGACY_HOME_CONFIG_PATH home) :=
      fun hll => h ((legacy_candidates_collapse_iff cwd home).mp hll)
    simp [_config_candidates, _legacy_candidates, if_neg hc, if_neg hl, h]

/-- When the canonical path already holds a regular file, migration of a
pair is a no-op whatever the legacy path holds. -/
theorem maybe_migrate_file_noop {fs : Fs} {legacy target : FsPath}
    (hf : fsIsFile fs target = true) :
    _maybe_migrate_legacy fs legacy target = Except.ok (fs, []) := by
  unfold fsIsFile at hf
  rcases hft : fsFind fs target with _ | nt
  · rw [hft] at hf
    exact Bool.noConfusion hf
  · rcases nt with c | _ | _
    · simp [_maybe_migrate_legacy, fsExists, fsIsFile, hft]
    · simp [_maybe_migrate_legacy, fsExists, fsIsFile, hft]
    · rw [hft] at hf
      exact Bool.noConfusion hf

theorem maybe_migrate_ok_cases {fs : Fs} {legacy target : FsPath}
    {fs1 : Fs} {ws : List (FsPath × String)}
    (h : _maybe_migrate_legacy fs legacy target = Except.ok (fs1, ws)) :
    (fs1 = fs ∧ ws = [])
    ∨ (fsFind fs target = none
        ∧ ∃ c, fsFind fs legacy = some (FsNode.file c)
          ∧ fs1 = fsSet fs target (FsNode.file c)
          ∧ ws = [(target, c)]) := by
  unfold _maybe_migrate_legacy at h
  rcases hft : fsFind fs target with _ | nt
  · rcases hfl : fsFind fs legacy with _ | nl
    · simp [fsExists, fsIsFile, hft, hfl] at h
      exact Or.inl ⟨h.1.symm, h.2⟩
    · rcases nl with c | _ | _
      · simp [fsExists, fsIsFile, hft, hfl] at h
        exact Or.inr ⟨rfl, c, rfl, h.1.symm, h.2.symm⟩
      · simp [fsExists, fsIsFile, hft, hfl] at h
      · simp [fsExists, fsIsFile, hft, hfl] at h
        exact Or.inl ⟨h.1.symm, h.2⟩
  · rcases nt with c | _ | _
    · simp [fsExists, fsIsFile, hft] at h
      exact Or.inl ⟨h.1.symm, h.2⟩
    · simp [fsExists, fsIsFile, hft] at h
      exact Or.inl ⟨h.1.symm, h.2⟩
    · simp [fsExists, fsIsFile, hft] at h

/-- C3: migration never overwrites an existing canonical file: when the
canonical path is a regular file the filesystem is returned unchanged
with no write, whatever the legacy file holds; and on any successful run
either nothing was written, or the canonical path was absent, the legacy
path was a readable regular file, and the single write put the legacy
content at the canonical path verbatim. -/
theorem C3_migration_never_overwrites (fs : Fs) (legacy target : FsPath) :
    (fsIsFile fs target = true →
        _maybe_migrate_legacy fs legacy target = Except.ok (fs, []))
    ∧ (∀ fs1 ws,
        _maybe_migrate_legacy fs legacy target = Except.ok (fs1, ws) →
        (fs1 = fs ∧ ws = [])
        ∨ (fsFind fs target = none
            ∧ ∃ c, fsFind fs legacy = some (FsNode.file c)
              ∧ fs1 = fsSet fs target (FsNode.file c)
              ∧ ws = [(target, c)])) :=
  ⟨fun hf => maybe_migrate_file_noop hf,
   fun _ _ h => maybe_migrate_ok_cases h⟩

theorem C3_migration_never_overwrites_witness :
    _maybe_migrate_legacy
        [([".takopi", "takopi.toml"], FsNode.file "canonical"),
         ([".codex", "takopi.toml"], FsNode.file "different legacy")]
        [".codex", "takopi.toml"] [".takopi", "takopi.toml"]
      = Except.ok
          ([([".takopi", "takopi.toml"], FsNode.file "canonical"),
            ([".codex", "takopi.toml"], FsNode.file "different legacy")], []) :=
  (C3_migration_never_overwrites _ _ _).1 (by rfl)

theorem fsFind_fsSet_self (fs : Fs) (p : FsPath) (n : FsNode) :
    fsFind (fsSet fs p n) p = some n := by
  induction fs with
  | nil => simp [fsSet, fsFind]
  | cons e rest ih =>
      obtain ⟨p', n'⟩ := e
      by_cases h : p' = p <;> simp [fsSet, fsFind, h, ih]

theorem fsFind_fsSet_ne (fs : Fs) {p q : FsPath} (n : FsNode)
    (h : q ≠ p) : fsFind (fsSet fs p n) q = fsFind fs q := by
  induction fs with
  | nil => simp [fsSet, fsFind, Ne.symm h]
  | cons e rest ih =>
      obtain ⟨p'', n''⟩ := e
      by_cases h2 : p'' = p
      · subst h2
        simp [fsSet, fsFind, Ne.symm h]
      · simp only [fsSet, if_neg h2, fsFind]
        by_cases h3 : p'' = q <;> simp [h3, ih]

theorem fsIsFile_congr {fs fs' : Fs} {q : FsPath}
    (h : fsFind fs' q = fsFind fs q) : fsIsFile fs' q = fsIsFile fs q := by
  unfold fsIsFile
  rw [h]

/-- After a successful migration run, every node either kept its old
content or is a readable regular file (migration only ever writes
regular files). -/
theorem migrateAll_find_eq_or_file {pairs : List (FsPath × FsPath)}
    {fs fs1 : Fs} {ws : List (FsPath × String)}
    (h : migrateAll fs pairs = Except.ok (fs1, ws)) (q : FsPath) :
    fsFind fs1 q = fsFind fs q ∨ ∃ c, fsFind fs1 q = some (FsNode.file c) := by
  induction pairs generalizing fs ws with
  | nil =>
      simp [migrateAll] at h
      rw [h.1]
      exact Or.inl rfl
  | cons hd rest ih =>
      obtain ⟨lg, tgt⟩ := hd
      unfold migrateAll at h
      split at h
      · exact Except.noConfusion h
      next fsa w1 hstep =>
        split at h
        · exact Except.noConfusion h
        next fs2 ws2 hrest =>
          cases h
          rcases ih hrest with heq | hfile
          · rcases maybe_migrate_ok_cases hstep with ⟨hfs, _⟩ | ⟨_, c, _, hfs, _⟩
            · subst hfs
              exact Or.inl heq
            · subst hfs
              by_cases hq : q = tgt
              · subst hq
                rw [fsFind_fsSet_self] at heq
                exact Or.inr ⟨c, heq⟩
              · rw [fsFind_fsSet_ne fs _ hq] at heq
                exact Or.inl heq
          · exact Or.inr hfile

/-- Paths that are never a migration target keep their node through a
successful migration run. -/
theorem migrateAll_find_untouched {pairs : List (FsPath × FsPath)}
    {fs fs1 : Fs} {ws : List (FsPath × String)}
    (h : migrateAll fs pairs = Except.ok (fs1, ws)) (q : FsPath)
    (hq : ∀ p ∈ pairs, q ≠ p.2) : fsFind fs1 q = fsFind fs q := by
  induction pairs generalizing fs ws with
  | nil =>
      simp [migrateAll] at h
      rw [h.1]
  | cons hd rest ih =>
      obtain ⟨lg, tgt⟩ := hd
      unfold migrateAll at h
      split at h
      · exact Except.noConfusion h
      next fsa w1 hstep =>
        split at h
        · exact Except.noConfusion h
        next fs2 ws2 hrest =>
          cases h
          have h1 : fsFind fs1 q = fsFind fsa q :=
            ih hrest (fun p hp => hq p (List.mem_cons_of_mem _ hp))
          rcases maybe_migrate_ok_cases hstep with ⟨hfs, _⟩ | ⟨_, c, _, hfs, _⟩
          · subst hfs
            exact h1
          · subst hfs
            rw [h1, fsFind_fsSet_ne fs _ (hq (lg, tgt) (List.mem_cons_self _ _))]

theorem maybe_migrate_post {fs : Fs} {legacy target : FsPath}
    {fsa : Fs} {w1 : List (FsPath × String)}
    (h : _maybe_migrate_legacy fs legacy target = Except.ok (fsa, w1)) :
    migratedPair fsa (legacy, target) := by
  unfold _maybe_migrate_legacy at h
  unfold migratedPair
  rcases hft : fsFind fs target with _ | nt
  · rcases hfl : fsFind fs legacy with _ | nl
    · simp [fsExists, fsIsFile, hft, hfl] at h
      rw [← h.1]
      simp [fsIsFile, hft, hfl]
    · rcases nl with c | _ | _
      · simp [fsExists, fsIsFile, hft, hfl] at h
        rw [← h.1]
        simp [fsIsFile, fsFind_fsSet_self]
      · simp [fsExists, fsIsFile, hft, hfl] at h
      · simp [fsExists, fsIsFile, hft, hfl] at h
        rw [← h.1]
        simp [fsIsFile, hft, hfl]
  · rcases nt with c | _ | _
    · simp [fsExists, fsIsFile, hft] at h
      rw [← h.1]
      simp [fsIsFile, hft]
    · simp [fsExists, fsIsFile, hft] at h
      rw [← h.1]
      simp [fsIsFile, hft]
    · simp [fsExists, fsIsFile, hft] at h

/-- After one successful migration pass over pairs whose legacy paths are
never targets, every pair is in the migrated state. -/
theorem migrateAll_establishes {pairs : List (FsPath × FsPath)}
    {fs fs1 : Fs} {ws : List (FsPath × String)}
    (h : migrateAll fs pairs = Except.ok (fs1, ws))
    (hdisj : ∀ p ∈ pairs, ∀ p' ∈ pairs, p.1 ≠ p'.2) :
    ∀ p ∈ pairs, migratedPair fs1 p := by
  induction pairs generalizing fs ws with
  | nil =>
      intro p hp
      simp at hp
  | cons hd rest ih =>
      obtain ⟨lg, tgt⟩ := hd
      unfold migrateAll at h
      split at h
      · exact fun p hp => Except.noConfusion h
      next fsa w1 hstep =>
        split at h
        · exact fun p hp => Except.noConfusion h
        next fs2 ws2 hrest =>
          cases h
          intro p hp
          rcases List.mem_cons.mp hp with hph | hpr
          · subst hph
            rcases maybe_migrate_post hstep with hfile | ⟨hnone, hlf⟩
            · rcases migrateAll_find_eq_or_file hrest tgt with heq | ⟨c, hc⟩
              · exact Or.inl (by rw [fsIsFile_congr heq]; exact hfile)
              · exact Or.inl (by simp [fsIsFile, hc])
            · have hlg : fsFind fs1 lg = fsFind fsa lg :=
                migrateAll_find_untouched hrest lg
                  (fun p' hp' =>
                    hdisj (lg, tgt) (List.mem_cons_self _ _) p'
                      (List.mem_cons_of_mem _ hp'))
              rcases migrateAll_find_eq_or_file hrest tgt with heq | ⟨c, hc⟩
              · exact Or.inr ⟨by rw [heq]; exact hnone,
                  by rw [fsIsFile_congr hlg]; exact hlf⟩
              · exact Or.inl (by simp [fsIsFile, hc])
          · exact ih hrest
              (fun p1 hp1 p2 hp2 =>
                hdisj p1 (List.mem_cons_of_mem _ hp1) p2
                  (List.mem_cons_of_mem _ hp2)) p hpr

/-- A migration pass over pairs that are already in the migrated state
does nothing: same filesystem, no writes. -/
theorem migrateAll_noop {pairs : List (FsPath × FsPath)} {fs : Fs}
    (hall : ∀ p ∈ pairs, migratedPair fs p) :
    migrateAll fs pairs = Except.ok (fs, []) := by
  induction pairs with
  | nil => rfl
  | cons hd rest ih =>
      obtain ⟨lg, tgt⟩ := hd
      have hstep : _maybe_migrate_legacy fs lg tgt = Except.ok (fs, []) := by
        rcases hall (lg, tgt) (List.mem_cons_self _ _) with hfile | ⟨hnone, hlf⟩
        · exact maybe_migrate_file_noop hfile
        · have hex : fsExists fs tgt = false := by simp [fsExists, hnone]
          simp [_maybe_migrate_legacy, hex, hlf]
      simp [migrateAll, hstep,
        ih (fun p hp => hall p (List.mem_cons_of_mem _ hp))]

theorem mem_legacy_candidates_shape {cwd home q : FsPath}
    (hq : q ∈ _legacy_candidates cwd home) :
    ∃ d, q = d ++ [".codex", "takopi.toml"] := by
  unfold _legacy_candidates at hq
  split at hq <;> simp at hq
  · exact ⟨cwd, hq⟩
  · rcases hq with hq | hq
    · exact ⟨cwd, hq⟩
    · exact ⟨home, hq⟩

theorem mem_config_candidates_shape {cwd home q : FsPath}
    (hq : q ∈ _config_candidates cwd home) :
    ∃ d, q = d ++ [".takopi", "takopi.toml"] := by
  unfold _config_candidates at hq
  split at hq <;> simp at hq
  · exact ⟨cwd, hq⟩
  · rcases hq with hq | hq
    · exact ⟨cwd, hq⟩
    · exact ⟨home, hq⟩

theorem codex_ne_takopi (a b : FsPath) :
    a ++ [".codex", "takopi.toml"] ≠ b ++ [".takopi", "takopi.toml"] := by
  intro h
  have h2 := (List.append_inj' h rfl).2
  simp at h2

/-- C9: migration is idempotent — after a successful pass over the
legacy/canonical pairs of `load_telegram_config`, a second pass leaves
the filesystem exactly as the first pass left it and performs no write. -/
theorem C9_migration_idempotent (fs : Fs) (cwd home : FsPath)
    (fs1 : Fs) (ws : List (FsPath × String))
    (h : migrateAll fs
        (List.zip (_legacy_candidates cwd home) (_config_candidates cwd home))
      = Except.ok (fs1, ws)) :
    migrateAll fs1
        (List.zip (_legacy_candidates cwd home) (_config_candidates cwd home))
      = Except.ok (fs1, []) := by
  apply migrateAll_noop
  apply migrateAll_establishes h
  intro p hp p' hp'
  obtain ⟨hp1, _⟩ := List.of_mem_zip hp
  obtain ⟨_, hp2⟩ := List.of_mem_zip hp'
  obtain ⟨d, hd⟩ := mem_legacy_candidates_shape hp1
  obtain ⟨d', hd'⟩ := mem_config_candidates_shape hp2
  rw [hd, hd']
  exact codex_ne_takopi d d'

theorem C9_migration_idempotent_witness :
    migrateAll
        [(["home", ".codex", "takopi.toml"], FsNode.file "legacy text"),
         (["home", ".takopi", "takopi.toml"], FsNode.file "legacy text")]
        (List.zip (_legacy_candidates ["cwd"] ["home"])
          (_config_candidates ["cwd"] ["home"]))
      = Except.ok
          ([(["home", ".codex", "takopi.toml"], FsNode.file "legacy text"),
            (["home", ".takopi", "takopi.toml"], FsNode.file "legacy text")],
            []) :=
  C9_migration_idempotent
    [(["home", ".codex", "takopi.toml"], FsNode.file "legacy text")]
    ["cwd"] ["home"] _ _ (by rfl)

/-- With the migration pass pinned down, the remaining pipeline is the
global layer followed by the local candidates. -/
theorem load_none_eq_of_mig (parse : String → Except String Doc)
    {fs : Fs} {cwd home : FsPath} {fs1 : Fs} {ws : List (FsPath × String)}
    (hmig : migrateAll fs
        (List.zip (_legacy_candidates cwd home) (_config_candidates cwd home))
      = Except.ok (fs1, ws)) :
    load_telegram_config parse fs cwd home none =
      match _global_layer parse fs1 home with
      | none => Except.error ConfigErr.missingGlobal
      | some (g, gp) =>
          match tryLocals parse fs1 (_local_config_candidates cwd) with
          | some (d, c) => Except.ok (_deep_merge g d, c, fs1)
          | none => Except.ok (g, gp, fs1) := by
  simp only [load_telegram_config, hmig]

/-- C2: in the default resolution, after migration, the global layer is
loaded canonical-home-path first; the legacy home path is consulted only
when the canonical one is not a file; when neither yields a document the
resolution fails with the missing-global-configuration error; and no
default resolution succeeds unless one of the two home paths yielded a
document. -/
theorem C2_global_layer_required (parse : String → Except String Doc)
    (fs : Fs) (cwd home : FsPath) (fs1 : Fs) (ws : List (FsPath × String))
    (hmig : migrateAll fs
        (List.zip (_legacy_candidates cwd home) (_config_candidates cwd home))
      = Except.ok (fs1, ws)) :
    (∀ g, fsIsFile fs1 (HOME_CONFIG_PATH home) = true →
        _try_read_config parse fs1 (HOME_CONFIG_PATH home) = some g →
        ∃ d p, load_telegram_config parse fs cwd home none
          = Except.ok (d, p, fs1))
    ∧ (∀ g, fsIsFile fs1 (HOME_CONFIG_PATH home) = false →
        fsIsFile fs1 (LEGACY_HOME_CONFIG_PATH home) = true →
        _try_read_config parse fs1 (LEGACY_HOME_CONFIG_PATH home) = some g →
        ∃ d p, load_telegram_config parse fs cwd home none
          = Except.ok (d, p, fs1))
    ∧ (fsIsFile fs1 (HOME_CONFIG_PATH home) = true →
        _try_read_config parse fs1 (HOME_CONFIG_PATH home) = none →
        load_telegram_config parse fs cwd home none
          = Except.error ConfigErr.missingGlobal)
    ∧ (fsIsFile fs1 (HOME_CONFIG_PATH home) = false →
        fsIsFile fs1 (LEGACY_HOME_CONFIG_PATH home) = true →
        _try_read_config parse fs1 (LEGACY_HOME_CONFIG_PATH home) = none →
        load_telegram_config parse fs cwd home none
          = Except.error ConfigErr.missingGlobal)
    ∧ (fsIsFile fs1 (HOME_CONFIG_PATH home) = false →
        fsIsFile fs1 (LEGACY_HOME_CONFIG_PATH home) = false →
        load_telegram_config parse fs cwd home none
          = Except.error ConfigErr.missingGlobal)
    ∧ (∀ d p fs2, load_telegram_config parse fs cwd home none
          = Except.ok (d, p, fs2) →
        (fsIsFile fs1 (HOME_CONFIG_PATH home) = true
          ∧ ∃ g, _try_read_config parse fs1 (HOME_CONFIG_PATH home) = some g)
        ∨ (fsIsFile fs1 (HOME_CONFIG_PATH home) = false
            ∧ fsIsFile fs1 (LEGACY_HOME_CONFIG_PATH home) = true
            ∧ ∃ g, _try_read_config parse fs1 (LEGACY_HOME_CONFIG_PATH home)
                = some g)) := by
  refine ⟨?_, ?_, ?_, ?_, ?_, ?_⟩
  · intro g hH htry
    rw [load_none_eq_of_mig parse hmig]
    rcases htl : tryLocals parse fs1 (_local_config_candidates cwd) with _ | dc
    · exact ⟨g, HOME_CONFIG_PATH home, by simp [_global_layer, hH, htry, htl]⟩
    · obtain ⟨d, c⟩ := dc
      exact ⟨_deep_merge g d, c, by simp [_global_layer, hH, htry, htl]⟩
  · intro g hH hL htry
    rw [load_none_eq_of_mig parse hmig]
    rcases htl : tryLocals parse fs1 (_local_config_candidates cwd) with _ | dc
    · exact ⟨g, LEGACY_HOME_CONFIG_PATH home,
        by simp [_global_layer, hH, hL, htry, htl]⟩
    · obtain ⟨d, c⟩ := dc
      exact ⟨_deep_merge g d, c, by simp [_global_layer, hH, hL, htry, htl]⟩
  · intro hH htry
    rw [load_none_eq_of_mig parse hmig]
    simp [_global_layer, hH, htry]
  · intro hH hL htry
    rw [load_none_eq_of_mig parse hmig]
    simp [_global_layer, hH, hL, htry]
  · intro hH hL
    rw [load_none_eq_of_mig parse hmig]
    simp [_global_layer, hH, hL]
  · intro d p fs2 h
    rw [load_none_eq_of_mig parse hmig] at h
    by_cases hH : fsIsFile fs1 (HOME_CONFIG_PATH home) = true
    · rcases htry : _try_read_config parse fs1 (HOME_CONFIG_PATH home)
        with _ | g
      · simp [_global_layer, hH, htry] at h
      · exact Or.inl ⟨hH, g, rfl⟩
    · rw [Bool.not_eq_true] at hH
      by_cases hL : fsIsFile fs1 (LEGACY_HOME_CONFIG_PATH home) = true
      · rcases htry : _try_read_config parse fs1 (LEGACY_HOME_CONFIG_PATH home)
          with _ | g
        · simp [_global_layer, hH, hL, htry] at h
        · exact Or.inr ⟨hH, hL, g, rfl⟩
      · rw [Bool.not_eq_true] at hL
        simp [_global_layer, hH, hL] at h

theorem C2_global_layer_required_witness :
    load_telegram_config sampleParse [] ["cwd"] ["home"] none
      = Except.error ConfigErr.missingGlobal :=
  (C2_global_layer_required sampleParse [] ["cwd"] ["home"] [] []
    (by rfl)).2.2.2.2.1 (by rfl) (by rfl)

/-- C5 counterexample: when the canonical home file exists, is readable,
but fails parsing, the default resolution does not fail with the
malformed-document error the claim requires — it fails with the
missing-global-configuration error, because the home layer is read
best-effort and a parse failure is treated as "no document". -/
theorem C5_counterexample :
    load_telegram_config sampleParse
        [(["home", ".takopi", "takopi.toml"], FsNode.file "bad")]
        ["cwd"] ["home"] none
      = Except.error ConfigErr.missingGlobal
    ∧ isMalformedErr ConfigErr.missingGlobal = false := by
  exact ⟨rfl, rfl⟩

/-- C5 amended: for an explicitly supplied path that is a readable
regular file whose content fails parsing, resolution fails with the
malformed-document error carrying the parser's diagnostic text, not with
the missing-file error; for the home/global layer of the default
resolution, however, a malformed home file yields no document and
resolution fails with the missing-global-configuration error instead. -/
theorem C5_explicit_malformed (parse : String → Except String Doc)
    (fs : Fs) (cwd home : FsPath) :
    (∀ p raw e, fsFind fs p = some (FsNode.file raw) →
        parse raw = Except.error e →
        load_telegram_config parse fs cwd home (some p)
          = Except.error (ConfigErr.malformed p e)
        ∧ ConfigErr.malformed p e ≠ ConfigErr.missingFile p)
    ∧ (∀ fs1 ws raw e,
        migrateAll fs
            (List.zip (_legacy_candidates cwd home)
              (_config_candidates cwd home))
          = Except.ok (fs1, ws) →
        fsFind fs1 (HOME_CONFIG_PATH home) = some (FsNode.file raw) →
        parse raw = Except.error e →
        load_telegram_config parse fs cwd home none
          = Except.error ConfigErr.missingGlobal) := by
  constructor
  · intro p raw e hf he
    constructor
    · simp [load_telegram_config, _read_config, hf, he]
    · exact fun hcon => ConfigErr.noConfusion hcon
  · intro fs1 ws raw e hmig hf he
    rw [load_none_eq_of_mig parse hmig]
    have hH : fsIsFile fs1 (HOME_CONFIG_PATH home) = true := by
      simp [fsIsFile, hf]
    have htry : _try_read_config parse fs1 (HOME_CONFIG_PATH home) = none := by
      simp [_try_read_config, fsIsFile, hf, he]
    simp [_global_layer, hH, htry]

theorem C5_explicit_malformed_witness :
    load_telegram_config sampleParse [(["cfg.toml"], FsNode.file "bad")]
        ["cwd"] ["home"] (some ["cfg.toml"])
      = Except.error (ConfigErr.malformed ["cfg.toml"] "diag") :=
  ((C5_explicit_malformed sampleParse [(["cfg.toml"], FsNode.file "bad")]
    ["cwd"] ["home"]).1 ["cfg.toml"] "bad" "diag" (by rfl) (by rfl)).1

/-- C7: with the global layer loaded, the local candidates
`./takopi.toml` then `./.takopi/takopi.toml` are tried in that order,
best-effort: an absent, unreadable or malformed candidate counts as not
present; the first candidate yielding a document wins, the later one is
not consulted, and the result is the merge of the global layer with that
document under the candidate's provenance; if no candidate yields a
document the global layer and its own path are returned. -/
theorem C7_local_layer_best_effort (parse : String → Except String Doc)
    (fs : Fs) (cwd home : FsPath) (fs1 : Fs) (ws : List (FsPath × String))
    (g : Doc) (gp : FsPath)
    (hmig : migrateAll fs
        (List.zip (_legacy_candidates cwd home) (_config_candidates cwd home))
      = Except.ok (fs1, ws))
    (hg : _global_layer parse fs1 home = some (g, gp)) :
    _local_config_candidates cwd
      = [cwd ++ ["takopi.toml"], cwd ++ [".takopi", "takopi.toml"]]
    ∧ (∀ d, _try_read_config parse fs1 (cwd ++ ["takopi.toml"]) = some d →
        load_telegram_config parse fs cwd home none
          = Except.ok (_deep_merge g d, cwd ++ ["takopi.toml"], fs1))
    ∧ (∀ d, _try_read_config parse fs1 (cwd ++ ["takopi.toml"]) = none →
        _try_read_config parse fs1 (cwd ++ [".takopi", "takopi.toml"])
          = some d →
        load_telegram_config parse fs cwd home none
          = Except.ok (_deep_merge g d, cwd ++ [".takopi", "takopi.toml"], fs1))
    ∧ (_try_read_config parse fs1 (cwd ++ ["takopi.toml"]) = none →
        _try_read_config parse fs1 (cwd ++ [".takopi", "takopi.toml"])
          = none →
        load_telegram_config parse fs cwd home none = Except.ok (g, gp, fs1))
    ∧ (∀ q, fsFind fs1 q = none → _try_read_config parse fs1 q = none)
    ∧ (∀ q, fsFind fs1 q = some FsNode.ufile →
        _try_read_config parse fs1 q = none)
    ∧ (∀ q raw e, fsFind fs1 q = some (FsNode.file raw) →
        parse raw = Except.error e → _try_read_config parse fs1 q = none) := by
  refine ⟨rfl, ?_, ?_, ?_, ?_, ?_, ?_⟩
  · intro d h1
    rw [load_none_eq_of_mig parse hmig, hg]
    simp [tryLocals, _local_config_candidates, LOCAL_CONFIG_SIMPLE,
      LOCAL_CONFIG_NAME, h1]
  · intro d h1 h2
    rw [load_none_eq_of_mig parse hmig, hg]
    simp [tryLocals, _local_config_candidates, LOCAL_CONFIG_SIMPLE,
      LOCAL_CONFIG_NAME, h1, h2]
  · intro h1 h2
    rw [load_none_eq_of_mig parse hmig, hg]
    simp [tryLocals, _local_config_candidates, LOCAL_CONFIG_SIMPLE,
      LOCAL_CONFIG_NAME, h1, h2]
  · intro q hq
    simp [_try_read_config, fsIsFile, hq]
  · intro q hq
    simp [_try_read_config, fsIsFile, hq]
  · intro q raw e hq he
    simp [_try_read_config, fsIsFile, hq, he]

theorem C7_local_layer_best_effort_witness :
    load_telegram_config sampleParse
        [(["home", ".takopi", "takopi.toml"], FsNode.file "g"),
         (["cwd", "takopi.toml"], FsNode.file "l")]
        ["cwd"] ["home"] none
      = Except.ok
          (_deep_merge
            [("bot_token", Value.str "abc"), ("chat_id", Value.int 111)]
            [("chat_id", Value.int 222)],
            ["cwd"] ++ ["takopi.toml"],
            [(["home", ".takopi", "takopi.toml"], FsNode.file "g"),
             (["cwd", "takopi.toml"], FsNode.file "l")]) :=
  (C7_local_layer_best_effort sampleParse
    [(["home", ".takopi", "takopi.toml"], FsNode.file "g"),
     (["cwd", "takopi.toml"], FsNode.file "l")]
    ["cwd"] ["home"]
    [(["home", ".takopi", "takopi.toml"], FsNode.file "g"),
     (["cwd", "takopi.toml"], FsNode.file "l")] []
    [("bot_token", Value.str "abc"), ("chat_id", Value.int 111)]
    (["home"] ++ [".takopi", "takopi.toml"])
    (by rfl) (by rfl)).2.1 [("chat_id", Value.int 222)] (by rfl)

/-- C4: whenever `TAKOPI_BOT_TOKEN` is set to a value that is non-empty
after stripping surrounding whitespace, the resolved bot token is that
value stripped, whatever `bot_token` the document holds. -/
theorem C4_env_token_precedence (env : String → Option String)
    (config : Doc) (t : String) (henv : env ENV_BOT_TOKEN = some t)
    (ht : pyStrip t ≠ "") :
    get_bot_token env config = Except.ok (pyStrip t) := by
  have ht0 : t ≠ "" := by
    intro h0
    exact ht (by rw [h0]; rfl)
  simp [get_bot_token, henv, ht, ht0]

theorem C4_env_token_precedence_witness :
    get_bot_token
        (fun k => if k = "TAKOPI_BOT_TOKEN" then some " tok " else none)
        [("bot_token", Value.str "from config")]
      = Except.ok "tok" :=
  C4_env_token_precedence
    (fun k => if k = "TAKOPI_BOT_TOKEN" then some " tok " else none)
    [("bot_token", Value.str "from config")] " tok " (by rfl) (by decide)

/-- C8: with no `TAKOPI_CHAT_ID` in the environment, a boolean `chat_id`
is rejected with the invalid-type error — the embedding keeps booleans
distinct from integers precisely because the source tests
`isinstance(chat_id_value, bool)` before the integer test — and so is
every other non-integer value. -/
theorem C8_chat_id_rejects_bool (env : String → Option String)
    (config : Doc) (henv : env ENV_CHAT_ID = none) :
    (∀ b, assocFind config "chat_id" = some (Value.bool b) →
        get_chat_id env config = Except.error ConfigErr.invalidChatId)
    ∧ (∀ v, assocFind config "chat_id" = some v →
        (∀ n, v ≠ Value.int n) →
        get_chat_id env config = Except.error ConfigErr.invalidChatId) := by
  constructor
  · intro b hb
    simp [get_chat_id, henv, get_chat_id_config, hb]
  · intro v hv hvn
    rcases v with s | n | b | xs | d
    · simp [get_chat_id, henv, get_chat_id_config, hv]
    · exact absurd rfl (hvn n)
    · simp [get_chat_id, henv, get_chat_id_config, hv]
    · simp [get_chat_id, henv, get_chat_id_config, hv]
    · simp [get_chat_id, henv, get_chat_id_config, hv]

theorem C8_chat_id_rejects_bool_witness :
    get_chat_id (fun _ => none) [("chat_id", Value.bool true)]
      = Except.error ConfigErr.invalidChatId :=
  (C8_chat_id_rejects_bool (fun _ => none) [("chat_id", Value.bool true)]
    (by rfl)).1 true (by rfl)
